import Mathlib

/-!
Shallow embedding of the pgq consumer core (python-pgq repository):
event retry dispositions (`pgq/consumer.py`), the lazy batch walker
(`pgq/baseconsumer.py`) and the cascaded consumer's state machine
(`pgq/cascade/consumer.py`), together with theorems settling the
frozen claims about the natural-language specification.
-/

namespace PgqSpec

/-! ## Event status codes (pgq/consumer.py, lines 13-16) -/

def EV_UNTAGGED : Int := -1
def EV_RETRY : Int := 0
def EV_DONE : Int := 1

/-! ## RetriableEvent (pgq/consumer.py, lines 19-40)

The fields the retry-flush logic reads: `id` (the event row's ev_id),
`_status` and `retry_time`.  `Event.__init__` sets `retry_time = 60`
(pgq/event.py line 48) and `RetriableEvent.__init__` sets
`_status = EV_DONE` (pgq/consumer.py line 30).  The remaining row
fields (type, data, extra1..extra4) only appear in the text of the
error message and are not modelled. -/

structure RetriableEvent where
  id : Int
  status : Int
  retry_time : Int
deriving DecidableEq

/-- `RetriableEvent.__init__`: a freshly constructed event, before any
tag call: status `EV_DONE`, retry_time 60. -/
def mkRetriableEvent (ev_id : Int) : RetriableEvent :=
  { id := ev_id, status := EV_DONE, retry_time := 60 }

/-- `RetriableEvent.tag_done`. -/
def RetriableEvent.tag_done (e : RetriableEvent) : RetriableEvent :=
  { e with status := EV_DONE }

/-- `RetriableEvent.tag_retry` (default `retry_time=60` at the call sites
that omit it). -/
def RetriableEvent.tag_retry (e : RetriableEvent) (retry_time : Int) : RetriableEvent :=
  { e with status := EV_RETRY, retry_time := retry_time }

/-- `RetriableEvent.get_status`. -/
def RetriableEvent.get_status (e : RetriableEvent) : Int := e.status

/-! ## RetriableBatchWalker status map (pgq/consumer.py, lines 67-92)

`status_map` is a Python dict from event id to `(status, retry_time)`;
modelled as an insertion-ordered association list, with dict update
keeping the key's position and dict deletion removing the entry — the
semantics of Python 3 dicts, over which `iter_status` iterates. -/

def StatusMap : Type := List (Int × Int × Int)

/-- Python `status_map.get(key)`: the value stored under `key`. -/
def mapGet (key : Int) : List (Int × Int × Int) → Option (Int × Int)
  | [] => none
  | (k, v) :: rest => if k = key then some v else mapGet key rest

/-- Python `status_map[key] = value`: update in place or append. -/
def mapSet (key : Int) (value : Int × Int) : List (Int × Int × Int) → List (Int × Int × Int)
  | [] => [(key, value)]
  | (k, v) :: rest => if k = key then (key, value) :: rest else (k, v) :: mapSet key value rest

/-- Python `del status_map[key]`: drop the entry stored under `key`. -/
def mapDel (key : Int) : List (Int × Int × Int) → List (Int × Int × Int)
  | [] => []
  | (k, v) :: rest => if k = key then rest else (k, v) :: mapDel key rest

namespace RetriableBatchWalker

/-- `RetriableBatchWalker.tag_event_done`: delete the entry if present
(`if event.id in self.status_map: del self.status_map[event.id]`). -/
def tag_event_done (m : List (Int × Int × Int)) (ev_id : Int) : List (Int × Int × Int) :=
  if (mapGet ev_id m).isSome then mapDel ev_id m else m

/-- `RetriableBatchWalker.tag_event_retry`:
`self.status_map[event.id] = (EV_RETRY, retry_time)`. -/
def tag_event_retry (m : List (Int × Int × Int)) (ev_id : Int) (retry_time : Int) :
    List (Int × Int × Int) :=
  mapSet ev_id (EV_RETRY, retry_time) m

/-- `RetriableBatchWalker.get_status`:
`self.status_map.get(event.id, (EV_DONE, 0))[0]`. -/
def get_status (m : List (Int × Int × Int)) (ev_id : Int) : Int :=
  ((mapGet ev_id m).getD (EV_DONE, 0)).1

end RetriableBatchWalker

/-- One call a consumer can make against a walker's status map through
`RetriableWalkerEvent.tag_retry` / `tag_done` (pgq/consumer.py 57-64). -/
inductive TagOp where
  | retryOp (ev_id : Int) (retry_time : Int)
  | doneOp (ev_id : Int)
deriving DecidableEq

/-- Apply one tag call to the walker's status map. -/
def applyOp (m : List (Int × Int × Int)) : TagOp → List (Int × Int × Int)
  | TagOp.retryOp ev_id t => RetriableBatchWalker.tag_event_retry m ev_id t
  | TagOp.doneOp ev_id => RetriableBatchWalker.tag_event_done m ev_id

/-- Apply a sequence of tag calls, oldest first. -/
def applyOps (ops : List TagOp) (m : List (Int × Int × Int)) : List (Int × Int × Int) :=
  ops.foldl applyOp m

/-- Whether a tag call names the given event id. -/
def opTouches (ev_id : Int) : TagOp → Bool
  | TagOp.retryOp i _ => i = ev_id
  | TagOp.doneOp i => i = ev_id

/-! ## Consumer._flush_retry and Consumer._finish_batch
(pgq/consumer.py, lines 105-139)

The calls the flush issues against the engine are recorded in a list;
an exception raised mid-loop ends the loop, keeping the calls already
made.  `_tag_retry` executes `select pgq.event_retry(batch_id, ev_id,
retry_time)`; `BaseConsumer._finish_batch` executes
`select pgq.finish_batch(batch_id)` (pgq/baseconsumer.py line 363).
The `retry` counter feeding `stat_increase` is statistics only and is
not modelled. -/

inductive EngineCall where
  | eventRetry (batch_id ev_id retry_time : Int)
  | finishBatch (batch_id : Int)
deriving DecidableEq

/-- The eager branch of `Consumer._flush_retry` (the `for ev in ev_list`
loop over a plain event list, lines 117-123): returns the engine calls
issued and the raised error message, if any.  The source's message also
interpolates the event's type/data/extra1 row fields, not modelled. -/
def flushRetryEager (batch_id : Int) : List RetriableEvent → List EngineCall × Option String
  | [] => ([], none)
  | ev :: rest =>
    if ev.status = EV_RETRY then
      let r := flushRetryEager batch_id rest
      (EngineCall.eventRetry batch_id ev.id ev.retry_time :: r.1, r.2)
    else if ev.status = EV_DONE then
      flushRetryEager batch_id rest
    else
      ([], some ("Untagged event: id=" ++ toString ev.id))

/-- The lazy branch of `Consumer._flush_retry` (the
`for ev_id, stat in ev_list.iter_status()` loop, lines 110-115). -/
def flushRetryLazy (batch_id : Int) : List (Int × Int × Int) → List EngineCall × Option String
  | [] => ([], none)
  | (ev_id, stat) :: rest =>
    if stat.1 = EV_RETRY then
      let r := flushRetryLazy batch_id rest
      (EngineCall.eventRetry batch_id ev_id stat.2 :: r.1, r.2)
    else if stat.1 = EV_DONE then
      flushRetryLazy batch_id rest
    else
      ([], some ("Untagged event: id=" ++ toString ev_id))

/-- The `ev_list` argument of `Consumer._flush_retry`: either a plain
event list or a `RetriableBatchWalker` (represented by its status map,
the only part `iter_status` reads).  The branch taken mirrors the
`isinstance(ev_list, RetriableBatchWalker)` test at line 109. -/
inductive EventListM where
  | eager (evs : List RetriableEvent)
  | lazy (m : List (Int × Int × Int))

/-- `Consumer._flush_retry`. -/
def flushRetry (batch_id : Int) : EventListM → List EngineCall × Option String
  | EventListM.eager evs => flushRetryEager batch_id evs
  | EventListM.lazy m => flushRetryLazy batch_id m

/-- `Consumer._finish_batch`: run `_flush_retry` first; only when it did
not raise, call `pgq.finish_batch` via `BaseConsumer._finish_batch`. -/
def consumerFinishBatch (batch_id : Int) (ev_list : EventListM) :
    List EngineCall × Option String :=
  match flushRetry batch_id ev_list with
  | (calls, some e) => (calls, some e)
  | (calls, none) => (calls ++ [EngineCall.finishBatch batch_id], none)

/-! ## BaseBatchWalker (pgq/baseconsumer.py, lines 26-93)

`__iter__` is a generator: the first `next()` runs the double-fetch
check, sets `fetch_status = 1`, opens the server-side cursor and pulls
pages of up to `fetch_size` rows; each fetched page bumps `self.length`
by the page size before its rows are turned into events (via
`_make_event`, modelled by `f`) and yielded one by one; a page shorter
than `fetch_size` — in particular an empty one — ends the loop, and the
generator finally sets `fetch_status = 2`.  The underlying batch
contents are modelled as the list `rows` the cursor serves in order. -/

/-- The ordered sequence of events the generator yields over its whole
run: pages of `fetch_size` rows mapped through `_make_event`.  A zero
`fetch_size` or an empty batch makes the first fetch empty, ending the
loop at once. -/
def walkerYields {A B : Type} (f : A → B) (fetch_size : Nat) (rows : List A) : List B :=
  if fetch_size = 0 then []
  else if rows.isEmpty then []
  else if (rows.take fetch_size).length < fetch_size then (rows.take fetch_size).map f
  else (rows.take fetch_size).map f ++ walkerYields f fetch_size (rows.drop fetch_size)
termination_by rows.length
decreasing_by
  rename_i h0 h1 h2
  have hr : 0 < rows.length := by
    cases rows with
    | nil => simp at h1
    | cons a l => simp
  simp only [List.length_drop]
  omega

/-- The value of `self.length` once `consumed` events have been pulled
from the generator (the generator suspends at each `yield`, so after
the `consumed`-th event the pages fetched are exactly those needed to
cover it, each bumping `length` on fetch).  `consumed = 0` is the state
before the generator body first runs. -/
def walkerLenAfter {A : Type} (fetch_size : Nat) (rows : List A) (consumed : Nat) : Nat :=
  if fetch_size = 0 then 0
  else if rows.isEmpty then 0
  else if consumed = 0 then 0
  else if consumed ≤ (rows.take fetch_size).length then (rows.take fetch_size).length
  else if (rows.take fetch_size).length < fetch_size then (rows.take fetch_size).length
  else (rows.take fetch_size).length +
    walkerLenAfter fetch_size (rows.drop fetch_size) (consumed - (rows.take fetch_size).length)
termination_by rows.length
decreasing_by
  rename_i h0 h1 h2 h3 h4
  have hr : 0 < rows.length := by
    cases rows with
    | nil => simp at h1
    | cons a l => simp
  simp only [List.length_drop]
  omega

/-- The walker's mutable control state: `fetch_status`
(0 = not started, 1 = in progress, 2 = done) and `length`. -/
structure WalkerState where
  fetch_status : Nat
  length : Nat
deriving DecidableEq

/-- `BaseBatchWalker.__init__`: `fetch_status = 0`, `length = 0`. -/
def mkWalker : WalkerState := { fetch_status := 0, length := 0 }

/-- The message of the double-fetch error,
`"BatchWalker: double fetch? (%d)" % self.fetch_status`. -/
def doubleFetchMsg (fetch_status : Nat) : String :=
  "BatchWalker: double fetch? (" ++ toString fetch_status ++ ")"

/-- The first `next()` of an iteration attempt: the double-fetch guard
(`if self.fetch_status: raise ...`), then `fetch_status = 1`. -/
def walkerIterStart (s : WalkerState) : Except String WalkerState :=
  if s.fetch_status ≠ 0 then
    Except.error (doubleFetchMsg s.fetch_status)
  else
    Except.ok { s with fetch_status := 1 }

/-- State of the walker after a full, exhausted iteration:
`fetch_status = 2` and `length` equal to the total fetched. -/
def walkerAfterRun {A : Type} (fetch_size : Nat) (rows : List A) : WalkerState :=
  { fetch_status := 2, length := walkerLenAfter fetch_size rows rows.length }

/-- State of the walker after an iteration was started (first `next()`
ran the guard) but before any page was fetched. -/
def walkerAfterStart : WalkerState := { fetch_status := 1, length := 0 }

/-- An iteration attempt driven to exhaustion: either the double-fetch
error, or the yielded events together with the final walker state. -/
def walkerIterate {A B : Type} (f : A → B) (fetch_size : Nat) (rows : List A)
    (s : WalkerState) : Except String (List B × WalkerState) :=
  match walkerIterStart s with
  | Except.error e => Except.error e
  | Except.ok _ => Except.ok (walkerYields f fetch_size rows, walkerAfterRun fetch_size rows)

/-- `BaseBatchWalker.__len__`: `return self.length` — a total function
of the current state, never an error. -/
def walkerLen (s : WalkerState) : Nat := s.length

/-- `BaseConsumer._load_batch_events_old` (pgq/baseconsumer.py, lines
313-330): fetch every row of the batch that passes the server-side
`consumer_filter` (modelled by the predicate `p`), then map each row to
an event with `_make_event` (modelled by `f`). -/
def load_batch_events_old {A B : Type} (f : A → B) (p : A → Bool) (rows : List A) : List B :=
  (rows.filter p).map f

/-! ## CascadedConsumer (pgq/cascade/consumer.py) -/

/-- The ways `is_batch_done` raises (lines 254-255 and 266-267). -/
inductive BatchDoneError where
  | dstTickNull
  | lostPosition (prev_tick cur_tick dst_tick : Int)
deriving DecidableEq

/-- `CascadedConsumer.is_batch_done` (lines 249-267): `dst_tick` is the
target's `completed_tick`, an optional integer; Python's
`if not dst_tick` is true for NULL and for 0. -/
def is_batch_done (prev_tick cur_tick : Int) (dst_tick : Option Int) :
    Except BatchDoneError Bool :=
  match dst_tick with
  | none => Except.error BatchDoneError.dstTickNull
  | some d =>
    if d = 0 then Except.error BatchDoneError.dstTickNull
    else if prev_tick = d then Except.ok false
    else if cur_tick = d then Except.ok true
    else Except.error (BatchDoneError.lostPosition prev_tick cur_tick d)

/-- The consumer state row `pgq_node.get_consumer_state` returns, in the
fields `refresh_state` and `work` read (lines 203, 227-243). -/
structure CState where
  node_type : String
  provider_location : String
  paused : Bool
  uptodate : Bool
  cur_error : Bool
deriving DecidableEq

/-- The database calls the cascaded work cycle makes, in order. -/
inductive CCall where
  | getConsumerState
  | setConsumerUptodate
  | setConsumerError
  | sleepCall
  | closeDatabase
  | connectProvider
  | acquireBatch
  | loadEvents
  | processBatch
  | finishBatchCall
deriving DecidableEq

/-- One poll of the `refresh_state` loop body (lines 220-233): fetch the
state, then tag it up-to-date if needed, then clear a recorded error
when this run is not itself in an error state (`work_state != -1`). -/
def refreshPollCalls (work_state : Int) (st : CState) : List CCall :=
  [CCall.getConsumerState]
    ++ (if st.uptodate then [] else [CCall.setConsumerUptodate])
    ++ (if st.cur_error ∧ work_state ≠ -1 then [CCall.setConsumerError] else [])

/-- The `while True` loop of `refresh_state` with `full_logic = True`
(the default used from `work`, lines 220-237): poll the registry state
(`seq n` is the state the `n`-th poll observes), break when the
observed state is not paused, otherwise sleep and poll again.  `fuel`
bounds how many polls the model runs; `none` means the loop was still
blocked on pause when fuel ran out.  Returns the calls made and the
state the loop broke on. -/
def refreshStateLoop (work_state : Int) (seq : Nat → CState) :
    Nat → Nat → List CCall × Option CState
  | 0, _ => ([], none)
  | fuel + 1, n =>
    let st := seq n
    if st.paused then
      let rest := refreshStateLoop work_state seq fuel (n + 1)
      (refreshPollCalls work_state st ++ [CCall.sleepCall] ++ rest.1, rest.2)
    else
      (refreshPollCalls work_state st, some st)

/-- After the loop (lines 239-245): if the provider location changed,
close the stale provider connection and reconnect. -/
def refreshStateFinish (prev_loc : Option String) (st : CState) : List CCall :=
  if prev_loc = some st.provider_location then []
  else [CCall.closeDatabase, CCall.connectProvider]

/-- `BaseConsumer.work` (pgq/baseconsumer.py, lines 257-286) as its call
sequence: acquire a batch; when one was assigned, load its events, run
the user callback and finish the batch. -/
def baseWorkCalls (batch : Option Int) : List CCall :=
  CCall.acquireBatch ::
    (match batch with
     | none => []
     | some _ => [CCall.loadEvents, CCall.processBatch, CCall.finishBatchCall])

/-- `CascadedConsumer.work` (lines 197-211) as its call sequence:
refresh the state (blocking while paused); on a root node do the long
idle sleep of `process_root_node` and no batch work; otherwise connect
to the provider (`get_provider_db`) and run `BaseConsumer.work`.
`batch` is the batch id the engine would assign. -/
def cascadeWorkCalls (work_state : Int) (prev_loc : Option String) (batch : Option Int)
    (seq : Nat → CState) (fuel : Nat) : List CCall × Option CState :=
  match refreshStateLoop work_state seq fuel 0 with
  | (calls, none) => (calls, none)
  | (calls, some st) =>
    let calls2 := calls ++ refreshStateFinish prev_loc st
    if st.node_type = "root" then (calls2 ++ [CCall.sleepCall], some st)
    else (calls2 ++ [CCall.connectProvider] ++ baseWorkCalls batch, some st)

/-! ## Theorems -/

/-- C1, counterexample: the claim quantifies over every non-null
`completed_tick` and predicts the return value `false` (process the
batch) whenever `prev_tick = completed_tick`; but at
`prev_tick = 0`, `cur_tick = 1`, `completed_tick = some 0` the code's
`if not dst_tick` guard treats the non-null tick 0 as absent and raises
instead of returning. -/
theorem c1_zero_tick_counterexample : is_batch_done 0 1 (some 0) ≠ Except.ok false := by
  intro h
  simp [is_batch_done] at h

/-- C1, amended: for every reconciliation call with a non-null and
non-zero `completed_tick`: if `prev_tick = completed_tick` the check
returns `false` (process the batch); otherwise if
`cur_tick = completed_tick` it returns `true` (skip, idempotent
replay); for every other value it raises the lost-position error, and
no triple produces a third outcome. -/
theorem c1_is_batch_done_trichotomy (prev_tick cur_tick d : Int) (hd : d ≠ 0) :
    is_batch_done prev_tick cur_tick (some d) =
      (if prev_tick = d then Except.ok false
       else if cur_tick = d then Except.ok true
       else Except.error (BatchDoneError.lostPosition prev_tick cur_tick d)) := by
  simp [is_batch_done, hd]

/-- C1, witness: the amended trichotomy applied at the concrete triple
`prev_tick = 7`, `cur_tick = 9`, `completed_tick = 7`. -/
theorem c1_trichotomy_witness :
    is_batch_done 7 9 (some 7) =
      (if (7 : Int) = 7 then Except.ok false
       else if (9 : Int) = 7 then Except.ok true
       else Except.error (BatchDoneError.lostPosition 7 9 7)) :=
  c1_is_batch_done_trichotomy 7 9 7 (by decide)

/-- C10: when the target's recorded `completed_tick` is null — or zero,
which Python's truthiness test conflates with null — `is_batch_done`
raises the `dst_tick NULL?` error before any tick comparison: for all
`prev_tick` and `cur_tick` values the outcome is that error, never
process-the-batch nor skip. -/
theorem c10_null_tick_raises (prev_tick cur_tick : Int) :
    is_batch_done prev_tick cur_tick none = Except.error BatchDoneError.dstTickNull ∧
    is_batch_done prev_tick cur_tick (some 0) = Except.error BatchDoneError.dstTickNull := by
  exact ⟨rfl, rfl⟩

/-- C6: from a fresh walker, the first iteration attempt succeeds and
yields the batch's events; any further iteration attempt — whether the
first ran to exhaustion (`fetch_status = 2`) or was merely started
(`fetch_status = 1`) — fails with the double-fetch error and yields
nothing, so the first iteration is the only one that ever yields
events. -/
theorem c6_walker_double_iteration {A B : Type} (f f2 : A → B) (fs fs2 : Nat)
    (rows rows2 : List A) :
    walkerIterate f fs rows mkWalker =
      Except.ok (walkerYields f fs rows, walkerAfterRun fs rows) ∧
    walkerIterate f2 fs2 rows2 (walkerAfterRun fs rows) =
      Except.error (doubleFetchMsg 2) ∧
    walkerIterate f2 fs2 rows2 walkerAfterStart =
      Except.error (doubleFetchMsg 1) := by
  exact ⟨rfl, rfl, rfl⟩

/-- Every engine call the eager flush loop issues is a retry
registration, never a batch acknowledgment. -/
theorem flushRetryEager_no_finish (b b2 : Int) (evs : List RetriableEvent) :
    EngineCall.finishBatch b2 ∉ (flushRetryEager b evs).1 := by
  induction evs with
  | nil => simp [flushRetryEager]
  | cons ev rest ih =>
    by_cases h1 : ev.status = EV_RETRY
    · simpa [flushRetryEager, h1] using ih
    · by_cases h2 : ev.status = EV_DONE
      · simpa [flushRetryEager, h1, h2] using ih
      · simp [flushRetryEager, h1, h2]

/-- Every engine call the lazy flush loop issues is a retry
registration, never a batch acknowledgment. -/
theorem flushRetryLazy_no_finish (b b2 : Int) (m : List (Int × Int × Int)) :
    EngineCall.finishBatch b2 ∉ (flushRetryLazy b m).1 := by
  induction m with
  | nil => simp [flushRetryLazy]
  | cons kv rest ih =>
    obtain ⟨ev_id, stat⟩ := kv
    by_cases h1 : stat.1 = EV_RETRY
    · simpa [flushRetryLazy, h1] using ih
    · by_cases h2 : stat.1 = EV_DONE
      · simpa [flushRetryLazy, h1, h2] using ih
      · simp [flushRetryLazy, h1, h2]

/-- `_flush_retry` never issues the acknowledgment call itself, on
either kind of event list. -/
theorem flushRetry_no_finish (b b2 : Int) (ev_list : EventListM) :
    EngineCall.finishBatch b2 ∉ (flushRetry b ev_list).1 := by
  cases ev_list with
  | eager evs => exact flushRetryEager_no_finish b b2 evs
  | lazy m => exact flushRetryLazy_no_finish b b2 m

/-- C4: whenever the retry flush raises (an unresolved event was
found), `Consumer._finish_batch` never executes `pgq.finish_batch` for
any batch id: the flush strictly precedes the acknowledgment, so on a
flush error the executed call list contains no acknowledgment and the
batch is left unacknowledged. -/
theorem c4_no_ack_on_flush_error (b : Int) (ev_list : EventListM) (e : String)
    (h : (consumerFinishBatch b ev_list).2 = some e) (b2 : Int) :
    EngineCall.finishBatch b2 ∉ (consumerFinishBatch b ev_list).1 := by
  unfold consumerFinishBatch at h ⊢
  cases hf : flushRetry b ev_list with
  | mk calls err =>
    cases err with
    | none =>
      rw [hf] at h
      simp at h
    | some e2 =>
      have h3 := flushRetry_no_finish b b2 ev_list
      rw [hf] at h3
      simpa using h3

/-- C4, witness: a batch holding one event whose status field is the
`EV_UNTAGGED` placeholder makes the flush raise, and the executed calls
contain no `pgq.finish_batch(5)`. -/
theorem c4_no_ack_witness :
    EngineCall.finishBatch 5 ∉
      (consumerFinishBatch 5
        (EventListM.eager [{ id := 1, status := EV_UNTAGGED, retry_time := 60 }])).1 :=
  c4_no_ack_on_flush_error 5
    (EventListM.eager [{ id := 1, status := EV_UNTAGGED, retry_time := 60 }])
    ("Untagged event: id=" ++ toString (1 : Int)) rfl 5

/-- Every entry of the status map is an entry the walker tracks; a map
update leaves the other keys' entries in place. -/
theorem mapGet_mapSet_ne (k key : Int) (v : Int × Int) (m : List (Int × Int × Int))
    (h : k ≠ key) : mapGet key (mapSet k v m) = mapGet key m := by
  induction m with
  | nil => simp [mapSet, mapGet, h]
  | cons kv rest ih =>
    obtain ⟨k2, v2⟩ := kv
    by_cases h2 : k2 = k
    · subst h2
      simp [mapSet, mapGet, h]
    · simp only [mapSet, if_neg h2]
      by_cases h3 : k2 = key <;> simp [mapGet, h3, ih]

/-- Deleting one key's entry leaves the other keys' entries in place. -/
theorem mapGet_mapDel_ne (k key : Int) (m : List (Int × Int × Int))
    (h : k ≠ key) : mapGet key (mapDel k m) = mapGet key m := by
  induction m with
  | nil => simp [mapDel]
  | cons kv rest ih =>
    obtain ⟨k2, v2⟩ := kv
    by_cases h2 : k2 = k
    · subst h2
      simp [mapDel, mapGet, h]
    · simp only [mapDel, if_neg h2]
      by_cases h3 : k2 = key <;> simp [mapGet, h3, ih]

/-- An entry of the map after a deletion was an entry before it. -/
theorem mem_of_mem_mapDel (k : Int) (kv : Int × Int × Int) (m : List (Int × Int × Int))
    (h : kv ∈ mapDel k m) : kv ∈ m := by
  induction m with
  | nil => simp [mapDel] at h
  | cons kv2 rest ih =>
    obtain ⟨k2, v2⟩ := kv2
    by_cases h2 : k2 = k
    · simp only [mapDel, if_pos h2] at h
      exact List.mem_cons_of_mem _ h
    · simp only [mapDel, if_neg h2] at h
      rcases List.mem_cons.mp h with h3 | h3
      · exact h3 ▸ List.mem_cons_self _ _
      · exact List.mem_cons_of_mem _ (ih h3)

/-- Every value the status map holds marks a retry. -/
def allRetry (m : List (Int × Int × Int)) : Prop :=
  ∀ kv ∈ m, kv.2.1 = EV_RETRY

/-- Storing a retry mark preserves the all-retry invariant. -/
theorem allRetry_mapSet (key t : Int) (m : List (Int × Int × Int))
    (h : allRetry m) : allRetry (mapSet key (EV_RETRY, t) m) := by
  induction m with
  | nil =>
    intro kv hkv
    simp [mapSet] at hkv
    simp [hkv]
  | cons kv2 rest ih =>
    obtain ⟨k2, v2⟩ := kv2
    have h2 : allRetry rest := fun kv hkv => h kv (List.mem_cons_of_mem _ hkv)
    by_cases h3 : k2 = key
    · intro kv hkv
      simp only [mapSet, if_pos h3] at hkv
      rcases List.mem_cons.mp hkv with h4 | h4
      · simp [h4]
      · exact h ⟨k2, v2⟩ (List.mem_cons_self _ _) ▸ h2 kv h4
    · intro kv hkv
      simp only [mapSet, if_neg h3] at hkv
      rcases List.mem_cons.mp hkv with h4 | h4
      · exact h4 ▸ h ⟨k2, v2⟩ (List.mem_cons_self _ _)
      · exact ih h2 kv h4

/-- Deleting an entry preserves the all-retry invariant. -/
theorem allRetry_mapDel (key : Int) (m : List (Int × Int × Int))
    (h : allRetry m) : allRetry (mapDel key m) :=
  fun kv hkv => h kv (mem_of_mem_mapDel key kv m hkv)

/-- One tag call preserves the all-retry invariant of the status map. -/
theorem allRetry_applyOp (m : List (Int × Int × Int)) (op : TagOp)
    (h : allRetry m) : allRetry (applyOp m op) := by
  cases op with
  | retryOp ev_id t => exact allRetry_mapSet ev_id t m h
  | doneOp ev_id =>
    unfold applyOp RetriableBatchWalker.tag_event_done
    by_cases h2 : (mapGet ev_id m).isSome
    · simpa [h2] using allRetry_mapDel ev_id m h
    · simpa [h2] using h

/-- Any sequence of tag calls preserves the all-retry invariant. -/
theorem allRetry_applyOps (ops : List TagOp) (m : List (Int × Int × Int))
    (h : allRetry m) : allRetry (applyOps ops m) := by
  induction ops generalizing m with
  | nil => exact h
  | cons op rest ih => exact ih (applyOp m op) (allRetry_applyOp m op h)

/-- Tag calls that never name an event id keep it absent from the map. -/
theorem mapGet_applyOps_untouched (ops : List TagOp) (ev_id : Int)
    (m : List (Int × Int × Int)) (h0 : mapGet ev_id m = none)
    (h : ∀ op ∈ ops, opTouches ev_id op = false) :
    mapGet ev_id (applyOps ops m) = none := by
  induction ops generalizing m with
  | nil => exact h0
  | cons op rest ih =>
    have hop := h op (List.mem_cons_self _ _)
    have hrest : ∀ op2 ∈ rest, opTouches ev_id op2 = false :=
      fun op2 hop2 => h op2 (List.mem_cons_of_mem _ hop2)
    refine ih (applyOp m op) ?_ hrest
    cases op with
    | retryOp k t =>
      have hk : k ≠ ev_id := by
        simpa [opTouches] using hop
      rw [applyOp, RetriableBatchWalker.tag_event_retry, mapGet_mapSet_ne k ev_id _ m hk]
      exact h0
    | doneOp k =>
      have hk : k ≠ ev_id := by
        simpa [opTouches] using hop
      unfold applyOp RetriableBatchWalker.tag_event_done
      by_cases h2 : (mapGet k m).isSome
      · simpa [h2, mapGet_mapDel_ne k ev_id m hk] using h0
      · simpa [h2] using h0

/-- C9: after any sequence of `tag_retry` / `tag_done` calls on a fresh
walker, every entry of the status map marks a Retry (`tag_done` deletes
rather than storing a Done mark, and on an absent id it is a no-op);
`get_status` of any id absent from the map is Done; consequently an
event never tagged at all has status Done at flush time. -/
theorem c9_tracker_invariant (ops : List TagOp) (ev_id : Int)
    (h : ∀ op ∈ ops, opTouches ev_id op = false) :
    (∀ kv ∈ applyOps ops [], kv.2.1 = EV_RETRY) ∧
    (∀ j, mapGet j (applyOps ops []) = none →
      RetriableBatchWalker.get_status (applyOps ops []) j = EV_DONE) ∧
    (∀ (m : List (Int × Int × Int)) (j : Int),
      mapGet j m = none → RetriableBatchWalker.tag_event_done m j = m) ∧
    RetriableBatchWalker.get_status (applyOps ops []) ev_id = EV_DONE := by
  refine ⟨allRetry_applyOps ops [] (by intro kv hkv; simp at hkv), ?_, ?_, ?_⟩
  · intro j hj
    simp [RetriableBatchWalker.get_status, hj]
  · intro m j hj
    simp [RetriableBatchWalker.tag_event_done, hj]
  · have h2 : mapGet ev_id (applyOps ops []) = none :=
      mapGet_applyOps_untouched ops ev_id [] (by simp [mapGet]) h
    simp [RetriableBatchWalker.get_status, h2]

/-- C9, witness: the invariant applied to the concrete call sequence
`tag_retry(1, 30); tag_done(2)` and the never-tagged event id 5. -/
theorem c9_tracker_invariant_witness :
    (∀ kv ∈ applyOps [TagOp.retryOp 1 30, TagOp.doneOp 2] [], kv.2.1 = EV_RETRY) ∧
    (∀ j, mapGet j (applyOps [TagOp.retryOp 1 30, TagOp.doneOp 2] []) = none →
      RetriableBatchWalker.get_status (applyOps [TagOp.retryOp 1 30, TagOp.doneOp 2] []) j
        = EV_DONE) ∧
    (∀ (m : List (Int × Int × Int)) (j : Int),
      mapGet j m = none → RetriableBatchWalker.tag_event_done m j = m) ∧
    RetriableBatchWalker.get_status (applyOps [TagOp.retryOp 1 30, TagOp.doneOp 2] []) 5
      = EV_DONE :=
  c9_tracker_invariant [TagOp.retryOp 1 30, TagOp.doneOp 2] 5 (by decide)

/-- On a batch whose events all carry a resolved status, the eager
flush raises nothing and issues exactly the retry registrations of the
Retry-status events, in order. -/
theorem flushRetryEager_resolved (b : Int) (evs : List RetriableEvent)
    (h : ∀ e ∈ evs, e.status = EV_RETRY ∨ e.status = EV_DONE) :
    flushRetryEager b evs =
      ((evs.filter fun e => e.status == EV_RETRY).map
        (fun e => EngineCall.eventRetry b e.id e.retry_time), none) := by
  induction evs with
  | nil => rfl
  | cons ev rest ih =>
    have hrest : ∀ e ∈ rest, e.status = EV_RETRY ∨ e.status = EV_DONE :=
      fun e he => h e (List.mem_cons_of_mem _ he)
    rcases h ev (List.mem_cons_self _ _) with h1 | h1
    · simp [flushRetryEager, h1, ih hrest, List.filter_cons]
    · by_cases h2 : ev.status = EV_RETRY
      · simp [flushRetryEager, h2, ih hrest, List.filter_cons]
      · simp [flushRetryEager, h1, h2, ih hrest, List.filter_cons, EV_RETRY, EV_DONE]

/-- On a status map whose entries all mark retries, the lazy flush
raises nothing and issues exactly one retry registration per entry, in
map order. -/
theorem flushRetryLazy_allRetry (b : Int) (m : List (Int × Int × Int)) (h : allRetry m) :
    flushRetryLazy b m = (m.map (fun kv => EngineCall.eventRetry b kv.1 kv.2.2), none) := by
  induction m with
  | nil => rfl
  | cons kv rest ih =>
    obtain ⟨ev_id, stat⟩ := kv
    have h1 : stat.1 = EV_RETRY := h ⟨ev_id, stat⟩ (List.mem_cons_self _ _)
    have hrest : allRetry rest := fun kv2 hkv2 => h kv2 (List.mem_cons_of_mem _ hkv2)
    simp [flushRetryLazy, h1, ih hrest]

/-- C7: for a batch whose events are all resolved, the flush issues
exactly one `pgq.event_retry(batch, id, delay)` call per event whose
disposition is Retry — in the eager path the Retry-status events in
order, in the lazy path the walker's status-map entries (which hold
exactly the events tagged Retry) in order — and no call for any Done
event. -/
theorem c7_retry_flush_exact (b : Int) (evs : List RetriableEvent) (ops : List TagOp)
    (h : ∀ e ∈ evs, e.status = EV_RETRY ∨ e.status = EV_DONE) :
    flushRetryEager b evs =
      ((evs.filter fun e => e.status == EV_RETRY).map
        (fun e => EngineCall.eventRetry b e.id e.retry_time), none) ∧
    flushRetryLazy b (applyOps ops []) =
      ((applyOps ops []).map (fun kv => EngineCall.eventRetry b kv.1 kv.2.2), none) :=
  ⟨flushRetryEager_resolved b evs h,
   flushRetryLazy_allRetry b (applyOps ops [])
     (allRetry_applyOps ops [] (by intro kv hkv; simp at hkv))⟩

/-- C7, witness: one event tagged `Retry(30)` among otherwise-Done
events, in both paths (batch id 9, retried event id 2). -/
theorem c7_retry_flush_witness :
    flushRetryEager 9
        [mkRetriableEvent 1, RetriableEvent.tag_retry (mkRetriableEvent 2) 30,
         mkRetriableEvent 3] =
      (([mkRetriableEvent 1, RetriableEvent.tag_retry (mkRetriableEvent 2) 30,
         mkRetriableEvent 3].filter fun e => e.status == EV_RETRY).map
        (fun e => EngineCall.eventRetry 9 e.id e.retry_time), none) ∧
    flushRetryLazy 9 (applyOps [TagOp.retryOp 2 30] []) =
      ((applyOps [TagOp.retryOp 2 30] []).map
        (fun kv => EngineCall.eventRetry 9 kv.1 kv.2.2), none) :=
  c7_retry_flush_exact 9
    [mkRetriableEvent 1, RetriableEvent.tag_retry (mkRetriableEvent 2) 30,
     mkRetriableEvent 3]
    [TagOp.retryOp 2 30] (by decide)

/-- The eager flush raises exactly when some event's status field holds
a value that is neither Retry nor Done. -/
theorem flushRetryEager_error_iff (b : Int) (evs : List RetriableEvent) :
    ((flushRetryEager b evs).2.isSome = true) ↔
      ∃ e ∈ evs, e.status ≠ EV_RETRY ∧ e.status ≠ EV_DONE := by
  induction evs with
  | nil => simp [flushRetryEager]
  | cons ev rest ih =>
    by_cases h1 : ev.status = EV_RETRY
    · simp [flushRetryEager, h1, ih, EV_RETRY]
    · by_cases h2 : ev.status = EV_DONE
      · simp [flushRetryEager, h1, h2, ih, EV_RETRY, EV_DONE]
      · simp [flushRetryEager, h1, h2]

/-- C2, counterexample: a batch holding one event that was constructed
and never tagged — neither `tag_done` nor `tag_retry` was called — does
NOT make the flush raise: the eager flush returns no error for it, and
the lazy flush returns no error for a walker on which no tag call was
made, because a fresh event's status defaults to Done and an untagged
id is absent from the walker's status map. -/
theorem c2_untagged_no_raise_counterexample :
    (flushRetryEager 1 [mkRetriableEvent 7]).2 = none ∧
    (flushRetryLazy 1 (applyOps [] [])).2 = none :=
  ⟨rfl, rfl⟩

/-- C2, amended: an event left untagged has the default status Done, so
the flush does not raise for it; the eager flush raises exactly when
some event's status field holds a value other than the Retry and Done
marks (a value no code path of the repository assigns), and the lazy
flush never raises on a status map produced by the walker's tag calls,
since such a map holds only Retry entries. -/
theorem c2_flush_raise_amended (b ev_id : Int) (evs : List RetriableEvent)
    (ops : List TagOp) :
    (mkRetriableEvent ev_id).status = EV_DONE ∧
    (((flushRetryEager b evs).2.isSome = true) ↔
      ∃ e ∈ evs, e.status ≠ EV_RETRY ∧ e.status ≠ EV_DONE) ∧
    (flushRetryLazy b (applyOps ops [])).2 = none := by
  refine ⟨rfl, flushRetryEager_error_iff b evs, ?_⟩
  rw [flushRetryLazy_allRetry b (applyOps ops [])
    (allRetry_applyOps ops [] (by intro kv hkv; simp at hkv))]

/-- For every positive page size, the lazy walker yields every row of
the batch, in order, each mapped through `_make_event`: the page
boundaries are invisible in the yielded sequence. -/
theorem walkerYields_eq_map {A B : Type} (f : A → B) (fs : Nat) (rows : List A)
    (hfs : fs ≠ 0) : walkerYields f fs rows = rows.map f := by
  unfold walkerYields
  rw [if_neg hfs]
  by_cases h1 : rows.isEmpty
  · rw [if_pos h1]
    have h1e : rows = [] := by
      cases rows with
      | nil => rfl
      | cons a l => simp at h1
    simp [h1e]
  · rw [if_neg h1]
    by_cases h2 : (rows.take fs).length < fs
    · rw [if_pos h2]
      have h3 : rows.length ≤ fs := by
        simp only [List.length_take] at h2
        omega
      rw [List.take_of_length_le h3]
    · rw [if_neg h2]
      rw [walkerYields_eq_map f fs (rows.drop fs) hfs]
      rw [← List.map_append, List.take_append_drop]
termination_by rows.length
decreasing_by
  have hr : 0 < rows.length := by
    cases rows with
    | nil => simp at h1
    | cons a l => simp
  simp only [List.length_drop]
  omega

/-- C5: for every batch, every server-side filter and every positive
page size, iterating the lazy walker yields exactly the same ordered
event sequence as the eager full-fetch path
(`_load_batch_events_old`): same events, same order, same filtering,
wherever the page boundaries fall. -/
theorem c5_paging_equivalence {A B : Type} (f : A → B) (p : A → Bool) (fs : Nat)
    (rows : List A) (hfs : fs ≠ 0) :
    walkerYields f fs (rows.filter p) = load_batch_events_old f p rows := by
  rw [walkerYields_eq_map f fs (rows.filter p) hfs, load_batch_events_old]

/-- C5, witness: a five-row batch walked with page size 2 (pages of
2, 2 and 1) equals the eager fetch. -/
theorem c5_paging_equivalence_witness :
    walkerYields (fun n : Nat => n) 2 ([1, 2, 3, 4, 5].filter fun _ => true) =
      load_batch_events_old (fun n : Nat => n) (fun _ => true) [1, 2, 3, 4, 5] :=
  c5_paging_equivalence (fun n : Nat => n) (fun _ => true) 2 [1, 2, 3, 4, 5] (by decide)

/-- Before the generator body first runs, `self.length` is 0. -/
theorem walkerLenAfter_zero {A : Type} (fs : Nat) (rows : List A) :
    walkerLenAfter fs rows 0 = 0 := by
  unfold walkerLenAfter
  by_cases h0 : fs = 0
  · rw [if_pos h0]
  · rw [if_neg h0]
    by_cases h1 : rows.isEmpty
    · rw [if_pos h1]
    · rw [if_neg h1, if_pos rfl]

/-- Mid-iteration, `self.length` counts the events fetched so far: at
least the events already consumed, at most the whole batch. -/
theorem walkerLenAfter_bounds {A : Type} (fs : Nat) (rows : List A) (k : Nat)
    (hfs : fs ≠ 0) (hk : k ≤ rows.length) :
    k ≤ walkerLenAfter fs rows k ∧ walkerLenAfter fs rows k ≤ rows.length := by
  unfold walkerLenAfter
  rw [if_neg hfs]
  by_cases h1 : rows.isEmpty
  · rw [if_pos h1]
    have h1e : rows = [] := by
      cases rows with
      | nil => rfl
      | cons a l => simp at h1
    subst h1e
    simp at hk
    omega
  · rw [if_neg h1]
    by_cases h2 : k = 0
    · rw [if_pos h2]
      omega
    · rw [if_neg h2]
      by_cases h3 : k ≤ (rows.take fs).length
      · rw [if_pos h3]
        refine ⟨h3, ?_⟩
        simp only [List.length_take]
        omega
      · rw [if_neg h3]
        by_cases h4 : (rows.take fs).length < fs
        · rw [if_pos h4]
          exfalso
          simp only [List.length_take] at h3 h4
          omega
        · rw [if_neg h4]
          have hrec := walkerLenAfter_bounds fs (rows.drop fs) (k - (rows.take fs).length)
            hfs (by simp only [List.length_take, List.length_drop] at *; omega)
          simp only [List.length_take, List.length_drop] at *
          omega
termination_by rows.length
decreasing_by
  simp only [List.length_drop]
  omega

/-- C3, counterexample: the claim says `len()` on a not-fully-iterated
walker either raises or returns 0; but `__len__` just returns
`self.length`, and on a three-row batch with page size 2, after one
event was consumed (the first page already fetched), it returns 2 — the
first page's size, a partial count that is neither 0 nor the total. -/
theorem c3_partial_len_counterexample :
    walkerLenAfter 2 [10, 20, 30] 1 ≠ 0 ∧
    walkerLenAfter 2 [10, 20, 30] 1 = 2 := by
  have h : walkerLenAfter 2 [10, 20, 30] 1 = 2 := by
    unfold walkerLenAfter
    norm_num
  exact ⟨by omega, h⟩

/-- C3, amended: `len()` never raises; it returns 0 before the
iteration starts and the full event count once the iteration has
consumed every event, but mid-iteration it returns the running count of
events fetched so far — a partial count lying between the number of
events consumed and the total (e.g. a whole page's size after the first
event of that page). -/
theorem c3_len_amended {A : Type} (fs : Nat) (rows : List A) (k : Nat)
    (hfs : fs ≠ 0) (hk : k ≤ rows.length) :
    walkerLen mkWalker = 0 ∧
    walkerLenAfter fs rows 0 = 0 ∧
    k ≤ walkerLenAfter fs rows k ∧
    walkerLenAfter fs rows k ≤ rows.length ∧
    walkerLenAfter fs rows rows.length = rows.length := by
  have hb := walkerLenAfter_bounds fs rows k hfs hk
  have hf := walkerLenAfter_bounds fs rows rows.length hfs (Nat.le_refl _)
  exact ⟨rfl, walkerLenAfter_zero fs rows, hb.1, hb.2, by omega⟩

/-- C3, witness: the amended statement on the three-row batch with page
size 2, after one consumed event. -/
theorem c3_len_amended_witness :
    walkerLen mkWalker = 0 ∧
    walkerLenAfter 2 [10, 20, 30] 0 = 0 ∧
    1 ≤ walkerLenAfter 2 [10, 20, 30] 1 ∧
    walkerLenAfter 2 [10, 20, 30] 1 ≤ [10, 20, 30].length ∧
    walkerLenAfter 2 [10, 20, 30] [10, 20, 30].length = [10, 20, 30].length :=
  c3_len_amended 2 [10, 20, 30] 1 (by decide) (by decide)

/-- One poll of the refresh loop issues only registry calls, never a
batch acquire. -/
theorem refreshPollCalls_no_acquire (ws : Int) (st : CState) :
    CCall.acquireBatch ∉ refreshPollCalls ws st := by
  unfold refreshPollCalls
  by_cases h1 : st.uptodate <;> by_cases h2 : st.cur_error ∧ ws ≠ -1 <;> simp [h1, h2]

/-- The whole refresh loop — however long the pause lasts — performs no
batch-acquire call. -/
theorem refreshStateLoop_no_acquire (ws : Int) (seq : Nat → CState) (fuel n : Nat) :
    CCall.acquireBatch ∉ (refreshStateLoop ws seq fuel n).1 := by
  induction fuel generalizing n with
  | zero => simp [refreshStateLoop]
  | succ fuel ih =>
    unfold refreshStateLoop
    by_cases h : (seq n).paused
    · simp only [h, if_pos]
      intro hmem
      rcases List.mem_append.mp hmem with hmem2 | hmem2
      · rcases List.mem_append.mp hmem2 with hmem3 | hmem3
        · exact refreshPollCalls_no_acquire ws (seq n) hmem3
        · simp at hmem3
      · exact ih (n + 1) hmem2
    · simp only [h, if_neg, Bool.false_eq_true, not_false_eq_true]
      exact refreshPollCalls_no_acquire ws (seq n)

/-- When the refresh loop returns a state, that state was observed
unpaused — the loop only breaks on `not state['paused']`. -/
theorem refreshStateLoop_unpaused (ws : Int) (seq : Nat → CState) (fuel n : Nat)
    (cs : List CCall) (st : CState)
    (h : refreshStateLoop ws seq fuel n = (cs, some st)) : st.paused = false := by
  induction fuel generalizing n cs with
  | zero => simp [refreshStateLoop] at h
  | succ fuel ih =>
    unfold refreshStateLoop at h
    by_cases h2 : (seq n).paused
    · simp only [h2, if_pos] at h
      have h3 : (refreshStateLoop ws seq fuel (n + 1)).2 = some st := by
        have := congrArg Prod.snd h
        simpa using this
      exact ih (n + 1) (refreshStateLoop ws seq fuel (n + 1)).1
        (by rw [← h3])
    · simp only [h2, if_neg, Bool.false_eq_true, not_false_eq_true] at h
      have h3 : seq n = st := by
        have := congrArg Prod.snd h
        simpa using this
      rw [← h3]
      simpa using h2

/-- C8: in a cascaded work cycle the refresh loop itself performs zero
batch-acquire calls; it only hands a state back once a refresh observed
`paused = false`; and whenever the cycle's call trace contains a
batch-acquire at all, the refresh had completed with an unpaused state
— so while `paused = true` keeps being observed, no acquire ever
happens. -/
theorem c8_pause_gating (ws : Int) (prev_loc : Option String) (batch : Option Int)
    (seq : Nat → CState) (fuel : Nat) :
    CCall.acquireBatch ∉ (refreshStateLoop ws seq fuel 0).1 ∧
    (∀ cs st, refreshStateLoop ws seq fuel 0 = (cs, some st) → st.paused = false) ∧
    (CCall.acquireBatch ∈ (cascadeWorkCalls ws prev_loc batch seq fuel).1 →
      ∃ st, (refreshStateLoop ws seq fuel 0).2 = some st ∧ st.paused = false) := by
  refine ⟨refreshStateLoop_no_acquire ws seq fuel 0,
    fun cs st h => refreshStateLoop_unpaused ws seq fuel 0 cs st h, ?_⟩
  intro hmem
  unfold cascadeWorkCalls at hmem
  cases hsplit : refreshStateLoop ws seq fuel 0 with
  | mk cs r =>
    cases r with
    | none =>
      exfalso
      rw [hsplit] at hmem
      simp only [] at hmem
      have := refreshStateLoop_no_acquire ws seq fuel 0
      rw [hsplit] at this
      exact this hmem
    | some st =>
      exact ⟨st, rfl, refreshStateLoop_unpaused ws seq fuel 0 cs st hsplit⟩

/-- A registry that reports the consumer paused on the first poll and
unpaused from the second poll on. -/
def pausedThenFree : Nat → CState := fun n =>
  if n = 0 then
    { node_type := "branch", provider_location := "src", paused := true,
      uptodate := true, cur_error := false }
  else
    { node_type := "branch", provider_location := "src", paused := false,
      uptodate := true, cur_error := false }

/-- C8, witness: with the paused-then-unpaused registry and fuel for
three polls, the work cycle's acquire call is preceded by a refresh
that observed `paused = false`. -/
theorem c8_pause_gating_witness :
    ∃ st, (refreshStateLoop 0 pausedThenFree 3 0).2 = some st ∧ st.paused = false :=
  (c8_pause_gating 0 none (some 1) pausedThenFree 3).2.2 (by decide)

end PgqSpec
